import Mathlib

/-!
Verification of the survey-analysis core: a shallow embedding of the
classifier, key-question locator, cross-tabulation engine and text analyzer
of `survey_analyzer.py`, `survey_analyzer_enhanced.py` and
`analyze_questions.py`, with theorems settling the specification claims.
-/

namespace Survey

/-- A cell of the loaded table: `none` is a missing value (pandas NaN);
present values are their text rendering, matching the `str(val)`
comparisons of the source. -/
abbrev Cell := Option String

/-- `pat` starts the list `s` (character-list prefix test). -/
def startsWithL : List Char → List Char → Bool
  | [], _ => true
  | _ :: _, [] => false
  | a :: ps, b :: ss => a == b && startsWithL ps ss

/-- `pat` occurs contiguously inside `s` (character-list substring test). -/
def containsL (pat : List Char) : List Char → Bool
  | [] => pat.isEmpty
  | c :: ss => startsWithL pat (c :: ss) || containsL pat ss

/-- Python `pat in s`: contiguous substring containment. -/
def strContains (s pat : String) : Bool := containsL pat.data s.data

/-- Distinct elements in first-seen order, accumulating the already-seen
ones: pandas `Series.unique()` keeps the order of first appearance. -/
def uniqueAux {α : Type} [DecidableEq α] : List α → List α → List α
  | [], _ => []
  | v :: vs, seen => if v ∈ seen then uniqueAux vs seen else v :: uniqueAux vs (v :: seen)

/-- Distinct elements of a list in first-seen order (pandas `unique()`). -/
def uniqueFS {α : Type} [DecidableEq α] (l : List α) : List α := uniqueAux l []

theorem mem_uniqueAux {α : Type} [DecidableEq α] (a : α) :
    ∀ (l seen : List α), a ∈ uniqueAux l seen ↔ a ∈ l ∧ a ∉ seen := by
  intro l
  induction l with
  | nil => intro seen; simp [uniqueAux]
  | cons v vs ih =>
    intro seen
    by_cases hv : v ∈ seen
    · rw [uniqueAux, if_pos hv, ih]
      constructor
      · rintro ⟨h1, h2⟩
        exact ⟨List.mem_cons_of_mem v h1, h2⟩
      · rintro ⟨h1, h2⟩
        rcases List.mem_cons.1 h1 with h | h
        · exact absurd hv (h ▸ h2)
        · exact ⟨h, h2⟩
    · rw [uniqueAux, if_neg hv]
      by_cases hav : a = v
      · subst hav
        simp [hv]
      · rw [List.mem_cons, ih, List.mem_cons, List.mem_cons]
        constructor
        · rintro (h | ⟨h1, h2⟩)
          · exact absurd h hav
          · refine ⟨Or.inr h1, fun hs => h2 (Or.inr hs)⟩
        · rintro ⟨h1 | h1, h2⟩
          · exact absurd h1 hav
          · exact Or.inr ⟨h1, fun hs => (hs.elim hav h2 : False)⟩

theorem nodup_uniqueAux {α : Type} [DecidableEq α] :
    ∀ (l seen : List α), (uniqueAux l seen).Nodup := by
  intro l
  induction l with
  | nil => intro seen; simp [uniqueAux]
  | cons v vs ih =>
    intro seen
    by_cases hv : v ∈ seen
    · rw [uniqueAux, if_pos hv]; exact ih seen
    · rw [uniqueAux, if_neg hv]
      refine List.Nodup.cons ?_ (ih (v :: seen))
      intro hmem
      exact ((mem_uniqueAux v vs (v :: seen)).1 hmem).2 (List.mem_cons_self v seen)

theorem mem_uniqueFS {α : Type} [DecidableEq α] (a : α) (l : List α) :
    a ∈ uniqueFS l ↔ a ∈ l := by
  rw [uniqueFS, mem_uniqueAux]
  simp

theorem nodup_uniqueFS {α : Type} [DecidableEq α] (l : List α) :
    (uniqueFS l).Nodup := nodup_uniqueAux l []

/-- The non-missing values of a column, in row order: pandas `dropna()`. -/
def dropna (col : List Cell) : List String := col.filterMap id

/-- `df[col].dropna().unique()[:5]`: the first 5 distinct non-missing
values in first-seen order. -/
def sample_values (col : List Cell) : List String := (uniqueFS (dropna col)).take 5

/-- `df[col].nunique()`: the number of distinct non-missing values. -/
def nunique (col : List Cell) : ℕ := (uniqueFS (dropna col)).length

/-- The four question categories of the classifier. -/
inductive Category where
  | rating
  | yesNo
  | categorical
  | freeText
deriving DecidableEq

/-- The rating-scale test of `SurveyAnalyzer._categorize_questions`
(survey_analyzer.py line 54): any sample value contains "1 =" OR contains
"5 =". -/
def ratingCond (col : List Cell) : Bool :=
  (sample_values col).any fun v => strContains v "1 =" || strContains v "5 ="

/-- The rating-scale test of the analyze_questions.py loop (lines 24-27):
some single sample value contains BOTH "1 =" and "5 =". -/
def ratingCondAQ (col : List Cell) : Bool :=
  (sample_values col).any fun v => strContains v "1 =" && strContains v "5 ="

/-- Some sample value equals one of the affirmative/negative literals
(Python checks membership of str(val) in the list of the two literals). -/
def yesnoAny (col : List Cell) : Bool :=
  (sample_values col).any fun v => v == "Da" || v == "Ne"

/-- `SurveyAnalyzer._categorize_questions` (survey_analyzer.py lines 47-64)
as a per-column rule cascade, first match wins; the OR variant of the
rating-scale test. -/
def categorize (col : List Cell) : Category :=
  if ratingCond col then .rating
  else if nunique col ≤ 3 ∧ yesnoAny col then .yesNo
  else if nunique col ≤ 10 then .categorical
  else .freeText

/-- The module-level classification loop of analyze_questions.py
(lines 18-39): identical cascade but the AND variant of the rating-scale
test. -/
def categorize_aq (col : List Cell) : Category :=
  if ratingCondAQ col then .rating
  else if nunique col ≤ 3 ∧ yesnoAny col then .yesNo
  else if nunique col ≤ 10 then .categorical
  else .freeText

/-- The rating-scale rule as the claim words it: one of the first 5
distinct non-missing sample values contains "1 =" or contains "5 =". -/
def RatingRule (col : List Cell) : Prop :=
  ∃ v ∈ sample_values col, strContains v "1 =" = true ∨ strContains v "5 =" = true

/-- The yes/no rule as the claim words it: at most 3 distinct non-missing
values and some sample equals "Da" or "Ne". -/
def YesNoRule (col : List Cell) : Prop :=
  nunique col ≤ 3 ∧ ∃ v ∈ sample_values col, v = "Da" ∨ v = "Ne"

/-- The categorical rule as the claim words it: at most 10 distinct
non-missing values. -/
def CategoricalRule (col : List Cell) : Prop := nunique col ≤ 10

theorem ratingCond_iff (col : List Cell) : ratingCond col = true ↔ RatingRule col := by
  simp [ratingCond, RatingRule, List.any_eq_true]

theorem yesnoCond_iff (col : List Cell) :
    (nunique col ≤ 3 ∧ yesnoAny col = true) ↔ YesNoRule col := by
  simp [yesnoAny, YesNoRule, List.any_eq_true]

/-- Claim C1: for every column after the timestamp column, the classifier
assigns exactly one of the four categories by trying, in order and stopping
at the first match: rating-scale (some of the first 5 distinct non-missing
sample values contains "1 =" or contains "5 =", OR semantics), then yes/no
(at most 3 distinct non-missing values and some sample equals "Da" or
"Ne"), then categorical (at most 10 distinct non-missing values), then
free-text. -/
theorem c1_classifier_first_match (col : List Cell) :
    (categorize col = .rating ↔ RatingRule col) ∧
    (categorize col = .yesNo ↔ (¬ RatingRule col ∧ YesNoRule col)) ∧
    (categorize col = .categorical ↔
      (¬ RatingRule col ∧ ¬ YesNoRule col ∧ CategoricalRule col)) ∧
    (categorize col = .freeText ↔
      (¬ RatingRule col ∧ ¬ YesNoRule col ∧ ¬ CategoricalRule col)) := by
  have hr := ratingCond_iff col
  have hy := yesnoCond_iff col
  by_cases h1 : ratingCond col = true
  · have hR : RatingRule col := hr.1 h1
    rw [categorize, if_pos h1]
    refine ⟨⟨fun _ => hR, fun _ => rfl⟩, ?_, ?_, ?_⟩
    · exact ⟨fun h => Category.noConfusion h, fun h => absurd hR h.1⟩
    · exact ⟨fun h => Category.noConfusion h, fun h => absurd hR h.1⟩
    · exact ⟨fun h => Category.noConfusion h, fun h => absurd hR h.1⟩
  · have hnR : ¬ RatingRule col := fun h => h1 (hr.2 h)
    rw [categorize, if_neg (by simpa using h1)]
    by_cases h2 : nunique col ≤ 3 ∧ yesnoAny col = true
    · have hY : YesNoRule col := hy.1 h2
      rw [if_pos h2]
      refine ⟨?_, ?_, ?_, ?_⟩
      · exact ⟨fun h => Category.noConfusion h, fun h => absurd h hnR⟩
      · exact ⟨fun _ => ⟨hnR, hY⟩, fun _ => rfl⟩
      · exact ⟨fun h => Category.noConfusion h, fun h => absurd hY h.2.1⟩
      · exact ⟨fun h => Category.noConfusion h, fun h => absurd hY h.2.1⟩
    · have hnY : ¬ YesNoRule col := fun h => h2 (hy.2 h)
      rw [if_neg h2]
      by_cases h3 : nunique col ≤ 10
      · rw [if_pos h3]
        refine ⟨?_, ?_, ?_, ?_⟩
        · exact ⟨fun h => Category.noConfusion h, fun h => absurd h hnR⟩
        · exact ⟨fun h => Category.noConfusion h, fun h => absurd h.2 hnY⟩
        · exact ⟨fun _ => ⟨hnR, hnY, h3⟩, fun _ => rfl⟩
        · exact ⟨fun h => Category.noConfusion h, fun h => absurd h3 h.2.2.elim⟩
      · rw [if_neg h3]
        refine ⟨?_, ?_, ?_, ?_⟩
        · exact ⟨fun h => Category.noConfusion h, fun h => absurd h hnR⟩
        · exact ⟨fun h => Category.noConfusion h, fun h => absurd h.2 hnY⟩
        · exact ⟨fun h => Category.noConfusion h, fun h => absurd h.2.2 h3⟩
        · exact ⟨fun _ => ⟨hnR, hnY, h3⟩, fun _ => rfl⟩

/-- A column whose first sample contains "1 =" while no sample contains
"5 =": the two sibling implementations classify it differently. -/
def colC6 : List Cell := [some "1 = retko", some "svaki dan"]

/-- Claim C6: the sibling classifier implementations are not equivalent:
on a column whose samples contain "1 =" in one value and "5 =" in none,
the OR variant answers rating-scale while the AND variant answers
categorical. -/
theorem c6_variants_disagree :
    categorize colC6 = .rating ∧ categorize_aq colC6 = .categorical ∧
    categorize colC6 ≠ categorize_aq colC6 := by decide

/-- A column with 3 distinct values including both "Da" and "Ne" whose
third value matches the rating-scale pattern. -/
def colC8 : List Cell := [some "Da", some "Ne", some "1 = uzasno"]

/-- Claim C8 counterexample: a column with at most 3 distinct non-missing
values whose first 5 samples include the pair "Da"/"Ne" is classified
rating-scale, not yes/no, because one sample contains "1 =" and the
rating-scale rule fires first. -/
theorem c8_rating_overrides_cex :
    nunique colC8 ≤ 3 ∧ "Da" ∈ sample_values colC8 ∧ "Ne" ∈ sample_values colC8 ∧
    categorize colC8 = .rating ∧ categorize colC8 ≠ .yesNo := by decide

/-- Claim C8 as amended: a column with at most 3 distinct non-missing
values whose first 5 samples include the pair "Da"/"Ne" is never
classified categorical (nor free-text): it is yes/no unless some sample
matches the rating-scale pattern, in which case it is rating-scale. -/
theorem c8_yesno_priority (col : List Cell) (h3 : nunique col ≤ 3)
    (hDa : "Da" ∈ sample_values col) (hNe : "Ne" ∈ sample_values col) :
    (categorize col = .rating ∨ categorize col = .yesNo) ∧
    categorize col ≠ .categorical ∧
    ((∀ v ∈ sample_values col,
        strContains v "1 =" = false ∧ strContains v "5 =" = false) →
      categorize col = .yesNo) := by
  have hy : nunique col ≤ 3 ∧ yesnoAny col = true :=
    (yesnoCond_iff col).2 ⟨h3, "Da", hDa, Or.inl rfl⟩
  by_cases h1 : ratingCond col = true
  · refine ⟨Or.inl (by rw [categorize, if_pos h1]), ?_, ?_⟩
    · rw [categorize, if_pos h1]; exact fun h => Category.noConfusion h
    · intro hno
      exfalso
      obtain ⟨v, hv, hpat⟩ := (ratingCond_iff col).1 h1
      rcases hpat with hp | hp
      · exact absurd hp (by simp [(hno v hv).1])
      · exact absurd hp (by simp [(hno v hv).2])
  · have hc : categorize col = .yesNo := by
      rw [categorize, if_neg (by simpa using h1), if_pos hy]
    exact ⟨Or.inr hc, by rw [hc]; exact fun h => Category.noConfusion h, fun _ => hc⟩

/-- Witness for the amended C8 theorem at the concrete column
[some "Da", some "Ne"]. -/
theorem c8_yesno_priority_witness :
    (categorize [some "Da", some "Ne"] = .rating ∨
      categorize [some "Da", some "Ne"] = .yesNo) ∧
    categorize [some "Da", some "Ne"] ≠ .categorical ∧
    ((∀ v ∈ sample_values [some "Da", some "Ne"],
        strContains v "1 =" = false ∧ strContains v "5 =" = false) →
      categorize [some "Da", some "Ne"] = .yesNo) :=
  c8_yesno_priority [some "Da", some "Ne"] (by decide) (by decide) (by decide)

/-- `MaternityAnalyzer._interpret_p_value` (survey_analyzer_enhanced.py
lines 220-233). The p-value is modelled as an exact rational; `none` is
Python None. -/
def interpret_p_value : Option ℚ → String
  | none => "Cannot calculate statistical significance"
  | some p =>
    if p < 1/1000 then "Very strong statistical relationship (p < 0.001)"
    else if p < 1/100 then "Strong statistical relationship (p < 0.01)"
    else if p < 1/20 then "Statistically significant relationship (p < 0.05)"
    else if p < 1/10 then "Marginally significant trend (p < 0.1)"
    else "No significant statistical relationship found"

/-- Claim C5: the qualitative interpretation of a p-value is determined
exactly by the fixed cut points 0.001, 0.01, 0.05 and 0.10, with
inclusive-lower/exclusive-upper bands. -/
theorem c5_p_value_thresholds (p : ℚ) :
    (p < 1/1000 →
      interpret_p_value (some p) = "Very strong statistical relationship (p < 0.001)") ∧
    (1/1000 ≤ p ∧ p < 1/100 →
      interpret_p_value (some p) = "Strong statistical relationship (p < 0.01)") ∧
    (1/100 ≤ p ∧ p < 1/20 →
      interpret_p_value (some p) = "Statistically significant relationship (p < 0.05)") ∧
    (1/20 ≤ p ∧ p < 1/10 →
      interpret_p_value (some p) = "Marginally significant trend (p < 0.1)") ∧
    (1/10 ≤ p →
      interpret_p_value (some p) = "No significant statistical relationship found") := by
  refine ⟨fun h => ?_, fun h => ?_, fun h => ?_, fun h => ?_, fun h => ?_⟩ <;>
    simp only [interpret_p_value] <;> split_ifs with a b c d <;>
    first | rfl | (exfalso; rcases h with ⟨h1, h2⟩ <;> linarith) | (exfalso; linarith)

/-- Python `header.lower()` restricted to its ASCII core: the keyword
matching below compares lowercased header text; Python also lowercases
non-ASCII letters, which none of the concrete inputs here rely on. -/
def lowerA (s : String) : String := String.mk (s.data.map Char.toLower)

/-- `kw in header.lower()` — the keyword predicate of the locator. -/
def hasKw (header kw : String) : Bool := strContains (lowerA header) kw

/-- Header predicate for role education (line 57): stem "obrazovan". -/
def eduPred (c : String) : Bool := hasKw c "obrazovan"

/-- Header predicate for role birth_satisfaction (line 61): both
"iskustvo porođaja" and "oceni". -/
def satPred (c : String) : Bool := hasKw c "iskustvo porođaja" && hasKw c "oceni"

/-- Header predicate for role anxiety_during_birth (line 70). -/
def anxPred (c : String) : Bool := hasKw c "anksioznosti, straha" && hasKw c "porođaj"

/-- Header predicate for role postpartum_depression (line 72). -/
def ppdPred (c : String) : Bool := hasKw c "postporođajne depresije" && hasKw c "simptome"

/-- Header predicate for role mental_health_support (line 74). -/
def supPred (c : String) : Bool := hasKw c "emocijama i teškoćama" && hasKw c "sa kim"

/-- Header predicate for role future_children_desire (line 78). -/
def fcPred (c : String) : Bool := hasKw c "još dece" && hasKw c "odluk"

/-- Header predicate for role partner_support (line 82). -/
def psPred (c : String) : Bool := hasKw c "partner razume"

/-- One step of the for-loop of `_identify_key_questions` (lines 69-75):
an if/elif/elif chain that overwrites the binding of the matching role with the
current header. -/
def mhStep (acc : Option String × Option String × Option String) (c : String) :
    Option String × Option String × Option String :=
  if anxPred c then (some c, acc.2.1, acc.2.2)
  else if ppdPred c then (acc.1, some c, acc.2.2)
  else if supPred c then (acc.1, acc.2.1, some c)
  else acc

/-- `MaternityAnalyzer._identify_key_questions` (survey_analyzer_enhanced.py
lines 52-85): the returned dict in insertion order. The four
comprehension-bound roles take the head of the filtered header list
(`cols[0] if cols else None`); the three loop-bound roles come from the
overwriting for-loop. -/
def identify_key_questions (columns : List String) : List (String × Option String) :=
  let t := columns.foldl mhStep (none, none, none)
  [("education", (columns.filter eduPred).head?),
   ("birth_satisfaction", (columns.filter satPred).head?),
   ("anxiety_during_birth", t.1),
   ("postpartum_depression", t.2.1),
   ("mental_health_support", t.2.2),
   ("future_children_desire", (columns.filter fcPred).head?),
   ("partner_support", (columns.filter psPred).head?)]

/-- The seven semantic role names, in dict insertion order. -/
def roleNames : List String :=
  ["education", "birth_satisfaction", "anxiety_during_birth",
   "postpartum_depression", "mental_health_support",
   "future_children_desire", "partner_support"]

theorem head_filter_eq_find {α : Type} (p : α → Bool) :
    ∀ l : List α, (l.filter p).head? = l.find? p := by
  intro l
  induction l with
  | nil => rfl
  | cons x xs ih =>
    by_cases hx : p x = true
    · simp [List.filter_cons, List.find?_cons, hx]
    · simp only [List.filter_cons, List.find?_cons, hx]
      simpa [hx] using ih

/-- The last element of a list, or a default option when it is empty. -/
def lastD {α : Type} (l : List α) (d : Option α) : Option α :=
  l.foldl (fun _ x => some x) d

theorem lastD_nil {α : Type} (d : Option α) : lastD ([] : List α) d = d := rfl

theorem lastD_cons {α : Type} (x : α) (l : List α) (d : Option α) :
    lastD (x :: l) d = lastD l (some x) := rfl

theorem getLast_cons_or {α : Type} (x : α) (xs : List α) :
    (x :: xs).getLast? = match xs.getLast? with
      | some y => some y
      | none => some x := by
  induction xs generalizing x with
  | nil => rfl
  | cons y ys ih =>
    rw [List.getLast?_cons_cons, ih y]
    rcases h : ys.getLast? with _ | z <;> simp [ih, h]

theorem lastD_eq_getLast {α : Type} (l : List α) :
    ∀ d, lastD l d = match l.getLast? with
      | some y => some y
      | none => d := by
  induction l with
  | nil => intro d; rfl
  | cons x xs ih =>
    intro d
    rw [lastD_cons, ih (some x), getLast_cons_or x xs]
    rcases h : xs.getLast? with _ | z <;> simp

theorem foldl_mhStep_spec (columns : List String) :
    ∀ a b c, columns.foldl mhStep (a, b, c) =
      (lastD (columns.filter anxPred) a,
       lastD (columns.filter fun h => !anxPred h && ppdPred h) b,
       lastD (columns.filter fun h => !anxPred h && !ppdPred h && supPred h) c) := by
  induction columns with
  | nil => intro a b c; rfl
  | cons h t ih =>
    intro a b c
    rw [List.foldl_cons]
    by_cases h1 : anxPred h = true
    · rw [show mhStep (a, b, c) h = (some h, b, c) by simp [mhStep, h1], ih]
      simp [List.filter_cons, h1, lastD_cons]
    · by_cases h2 : ppdPred h = true
      · rw [show mhStep (a, b, c) h = (a, some h, c) by simp [mhStep, h1, h2], ih]
        simp [List.filter_cons, h1, h2, lastD_cons]
      · by_cases h3 : supPred h = true
        · rw [show mhStep (a, b, c) h = (a, b, some h) by simp [mhStep, h1, h2, h3], ih]
          simp [List.filter_cons, h1, h2, h3, lastD_cons]
        · rw [show mhStep (a, b, c) h = (a, b, c) by simp [mhStep, h1, h2, h3], ih]
          simp [List.filter_cons, h1, h2, h3]

/-- Two distinct headers that both satisfy the anxiety role predicate. -/
def hdrA1 : String := "prva mera anksioznosti, straha tokom porođaja"

/-- A second header satisfying the anxiety role predicate. -/
def hdrA2 : String := "druga mera anksioznosti, straha tokom porođaja"

/-- Claim C3 counterexample: with two headers both satisfying the anxiety
role predicate, the locator binds the role to the SECOND (later) header:
the for-loop overwrites the earlier binding instead of keeping it. -/
theorem c3_rebind_cex :
    anxPred hdrA1 = true ∧ anxPred hdrA2 = true ∧ hdrA1 ≠ hdrA2 ∧
    List.lookup "anxiety_during_birth" (identify_key_questions [hdrA1, hdrA2]) =
      some (some hdrA2) := by decide

/-- Claim C3 as amended: the four comprehension-bound roles (education,
birth_satisfaction, future_children_desire, partner_support) bind the
first header satisfying their predicate and never rebind, while the three
loop-bound roles (anxiety_during_birth, postpartum_depression,
mental_health_support) are overwritten by every later satisfying header,
so the last satisfying header wins — each header being claimed by the
first of the three role predicates it satisfies, per the elif chain. -/
theorem c3_binding_order (hs : List String) :
    List.lookup "education" (identify_key_questions hs) = some (hs.find? eduPred) ∧
    List.lookup "birth_satisfaction" (identify_key_questions hs) =
      some (hs.find? satPred) ∧
    List.lookup "future_children_desire" (identify_key_questions hs) =
      some (hs.find? fcPred) ∧
    List.lookup "partner_support" (identify_key_questions hs) =
      some (hs.find? psPred) ∧
    List.lookup "anxiety_during_birth" (identify_key_questions hs) =
      some ((hs.filter anxPred).getLast?) ∧
    List.lookup "postpartum_depression" (identify_key_questions hs) =
      some ((hs.filter fun h => !anxPred h && ppdPred h).getLast?) ∧
    List.lookup "mental_health_support" (identify_key_questions hs) =
      some ((hs.filter fun h => !anxPred h && !ppdPred h && supPred h).getLast?) := by
  have hfold := foldl_mhStep_spec hs none none none
  have h1 : lastD (hs.filter anxPred) none = (hs.filter anxPred).getLast? := by
    rw [lastD_eq_getLast]
    rcases (hs.filter anxPred).getLast? with _ | z <;> rfl
  have h2 : lastD (hs.filter fun h => !anxPred h && ppdPred h) none =
      (hs.filter fun h => !anxPred h && ppdPred h).getLast? := by
    rw [lastD_eq_getLast]
    rcases (hs.filter fun h => !anxPred h && ppdPred h).getLast? with _ | z <;> rfl
  have h3 : lastD (hs.filter fun h => !anxPred h && !ppdPred h && supPred h) none =
      (hs.filter fun h => !anxPred h && !ppdPred h && supPred h).getLast? := by
    rw [lastD_eq_getLast]
    rcases (hs.filter fun h => !anxPred h && !ppdPred h && supPred h).getLast? with _ | z
      <;> rfl
  refine ⟨?_, ?_, ?_, ?_, ?_, ?_, ?_⟩ <;>
    simp [identify_key_questions, List.lookup, hfold, h1, h2, h3,
      head_filter_eq_find]

/-- Claim C10: for every header list, the output mapping of the locator has
exactly the seven role keys, in insertion order; every role key is
present (lookup succeeds), and a role with no satisfying header is bound
to the None placeholder, as the empty header list shows for all seven. -/
theorem c10_seven_roles (hs : List String) :
    ((identify_key_questions hs).map Prod.fst = roleNames) ∧
    (∀ role ∈ roleNames,
      (List.lookup role (identify_key_questions hs)).isSome = true) ∧
    ((identify_key_questions []).map Prod.snd =
      [none, none, none, none, none, none, none]) := by
  refine ⟨by simp [identify_key_questions, roleNames], ?_, by decide⟩
  intro role hrole
  simp only [roleNames, List.mem_cons, List.not_mem_nil, or_false] at hrole
  rcases hrole with h | h | h | h | h | h | h <;>
    (subst h; simp [identify_key_questions, List.lookup])

/-- A paired-complete row: the value pair when both cells are non-missing;
`pd.crosstab` silently drops any row with a missing side. -/
def pairOf : Cell × Cell → Option (String × String)
  | (some a, some b) => some (a, b)
  | _ => none

/-- The paired-complete rows of two parallel columns. -/
def pairedRows (colA colB : List Cell) : List (String × String) :=
  (colA.zip colB).filterMap pairOf

/-- A rendered contingency table: ordered row keys, ordered column keys,
and a row-major matrix of counts. -/
structure CrossTab where
  rowKeys : List String
  colKeys : List String
  cells : List (List ℕ)
deriving DecidableEq

/-- `pd.crosstab` over paired-complete rows: the distinct first components
as row keys, the distinct second components as column keys, each cell the
co-occurrence count. pandas displays the keys sorted; that permutes rows
and columns but no cell content, so keys are kept here in first-seen
order, the order the data model describes. -/
def crosstabOfPairs (pr : List (String × String)) : CrossTab :=
  { rowKeys := uniqueFS (pr.map Prod.fst)
    colKeys := uniqueFS (pr.map Prod.snd)
    cells := (uniqueFS (pr.map Prod.fst)).map fun a =>
      (uniqueFS (pr.map Prod.snd)).map fun b =>
        pr.countP fun r => r.1 == a && r.2 == b }

/-- The contingency table of two columns over their paired-complete rows. -/
def crosstab (colA colB : List Cell) : CrossTab :=
  crosstabOfPairs (pairedRows colA colB)

/-- Read the cell of a rendered table at row value `a` and column value
`b`, locating the row and column by key. -/
def cellAt (t : CrossTab) (a b : String) : ℕ :=
  ((t.colKeys.zip (((t.rowKeys.zip t.cells).lookup a).getD [])).lookup b).getD 0

/-- `SurveyAnalyzer.create_cross_analysis` (survey_analyzer.py lines
164-182): Python `if var1 and var2 and var1 != var2` treats the empty
selection as falsy, builds the margins-stripped crosstab when the guard
holds, and returns None otherwise — None is the only failure signal, which
the caller renders as "Please select two different variables". The column
lookup models `df[var]` for columns present in the frame. -/
def create_cross_analysis (df : List (String × List Cell)) (var1 var2 : String) :
    Option CrossTab :=
  if var1 ≠ "" ∧ var2 ≠ "" ∧ var1 ≠ var2 then
    some (crosstab ((df.lookup var1).getD []) ((df.lookup var2).getD []))
  else none

theorem lookup_zip_map {α β : Type} [BEq α] [LawfulBEq α] (g : α → β) (a : α) :
    ∀ l : List α, a ∈ l → (l.zip (l.map g)).lookup a = some (g a) := by
  intro l
  induction l with
  | nil => intro h; cases h
  | cons x xs ih =>
    intro h
    rw [List.map_cons, List.zip_cons_cons]
    by_cases hax : a = x
    · subst hax
      simp [List.lookup_cons]
    · rw [List.lookup_cons]
      have hbeq : (a == x) = false := by simp [hax]
      rw [hbeq]
      exact ih (by rcases List.mem_cons.1 h with h | h
                   · exact absurd h hax
                   · exact h)

theorem countP_pairs (a b : String) (l : List (Cell × Cell)) :
    ((l.filterMap pairOf).countP fun r => r.1 == a && r.2 == b) =
      l.countP fun c => c.1 == some a && c.2 == some b := by
  rw [List.countP_filterMap]
  congr 1
  funext c
  rcases c with ⟨_ | x, _ | y⟩ <;> simp [pairOf]

theorem sum_map_add_nat {α : Type} (l : List α) (f g : α → ℕ) :
    (l.map fun x => f x + g x).sum = (l.map f).sum + (l.map g).sum := by
  induction l with
  | nil => rfl
  | cons x xs ih => simp only [List.map_cons, List.sum_cons, ih]; omega

theorem sum_map_indicator_zero {α : Type} [BEq α] [LawfulBEq α] (b : α) :
    ∀ keys : List α, b ∉ keys →
      (keys.map fun k => if b == k then 1 else 0).sum = 0 := by
  intro keys
  induction keys with
  | nil => intro _; rfl
  | cons k ks ih =>
    intro hb
    have hbk : (b == k) = false := by
      simp only [beq_eq_false_iff_ne, ne_eq]
      exact fun h => hb (h ▸ List.mem_cons_self k ks)
    simp only [List.map_cons, List.sum_cons, hbk, if_false]
    simpa using ih fun h => hb (List.mem_cons_of_mem k h)

theorem sum_map_indicator_one {α : Type} [BEq α] [LawfulBEq α] (b : α) :
    ∀ keys : List α, keys.Nodup → b ∈ keys →
      (keys.map fun k => if b == k then 1 else 0).sum = 1 := by
  intro keys
  induction keys with
  | nil => intro _ h; cases h
  | cons k ks ih =>
    intro nd hb
    by_cases hbk : b = k
    · subst hbk
      simp only [List.map_cons, List.sum_cons, beq_self_eq_true, if_true]
      rw [sum_map_indicator_zero b ks (List.Nodup.not_mem nd)]
    · have hbk2 : (b == k) = false := by simp [hbk]
      simp only [List.map_cons, List.sum_cons, hbk2, if_false]
      have hb2 : b ∈ ks := by
        rcases List.mem_cons.1 hb with h | h
        · exact absurd h hbk
        · exact h
      simpa using ih (List.Nodup.of_cons nd) hb2

theorem sum_countP_keys {α β : Type} [BEq β] [LawfulBEq β] (f : α → β)
    (keys : List β) (nd : keys.Nodup) :
    ∀ l : List α, (∀ x ∈ l, f x ∈ keys) →
      (keys.map fun k => l.countP fun x => f x == k).sum = l.length := by
  intro l
  induction l with
  | nil => intro _; simp
  | cons x xs ih =>
    intro cov
    have hx : f x ∈ keys := cov x (List.mem_cons_self x xs)
    have hcov : ∀ y ∈ xs, f y ∈ keys := fun y hy => cov y (List.mem_cons_of_mem x hy)
    have h1 : (keys.map fun k => (x :: xs).countP fun y => f y == k) =
        keys.map fun k => (xs.countP fun y => f y == k) + if f x == k then 1 else 0 := by
      simp only [List.countP_cons]
    rw [h1, sum_map_add_nat, ih hcov, sum_map_indicator_one (f x) keys nd hx]
    simp

/-- Claim C7: every cell of the contingency table of `analyze(A,B)` equals
the number of rows where both columns are non-missing and take the value
pair of that cell, and the sum of all cells equals the number of paired-complete
rows. -/
theorem c7_crosstab_cells (colA colB : List Cell) :
    (∀ a ∈ (crosstab colA colB).rowKeys, ∀ b ∈ (crosstab colA colB).colKeys,
      cellAt (crosstab colA colB) a b =
        (colA.zip colB).countP fun c => c.1 == some a && c.2 == some b) ∧
    ((crosstab colA colB).cells.map List.sum).sum =
      (pairedRows colA colB).length := by
  constructor
  · intro a ha b hb
    have ha2 : a ∈ uniqueFS ((pairedRows colA colB).map Prod.fst) := ha
    have hb2 : b ∈ uniqueFS ((pairedRows colA colB).map Prod.snd) := hb
    show ((((crosstab colA colB).colKeys).zip
        ((((crosstab colA colB).rowKeys.zip (crosstab colA colB).cells).lookup a).getD
          [])).lookup b).getD 0 = _
    rw [show (crosstab colA colB).rowKeys.zip (crosstab colA colB).cells =
        (uniqueFS ((pairedRows colA colB).map Prod.fst)).zip
          ((uniqueFS ((pairedRows colA colB).map Prod.fst)).map fun a =>
            (uniqueFS ((pairedRows colA colB).map Prod.snd)).map fun b =>
              (pairedRows colA colB).countP fun r => r.1 == a && r.2 == b) from rfl]
    rw [lookup_zip_map _ a _ ha2]
    show ((((crosstab colA colB).colKeys).zip
        ((uniqueFS ((pairedRows colA colB).map Prod.snd)).map fun b =>
          (pairedRows colA colB).countP fun r => r.1 == a && r.2 == b)).lookup b).getD 0 = _
    rw [show ((crosstab colA colB).colKeys : List String) =
        uniqueFS ((pairedRows colA colB).map Prod.snd) from rfl]
    rw [lookup_zip_map _ b _ hb2]
    show (pairedRows colA colB).countP (fun r => r.1 == a && r.2 == b) = _
    exact countP_pairs a b (colA.zip colB)
  · have hcells : (crosstab colA colB).cells.map List.sum =
        (uniqueFS ((pairedRows colA colB).map Prod.fst)).map fun a =>
          ((uniqueFS ((pairedRows colA colB).map Prod.snd)).map fun b =>
            (pairedRows colA colB).countP fun r => r.1 == a && r.2 == b).sum := by
      show ((uniqueFS ((pairedRows colA colB).map Prod.fst)).map _).map List.sum = _
      rw [List.map_map]
      rfl
    rw [hcells]
    have hinner : ∀ a : String,
        ((uniqueFS ((pairedRows colA colB).map Prod.snd)).map fun b =>
          (pairedRows colA colB).countP fun r => r.1 == a && r.2 == b).sum =
        ((pairedRows colA colB).filter fun r => r.1 == a).length := by
      intro a
      have hsw : ∀ b : String, ((pairedRows colA colB).countP
          fun r => r.1 == a && r.2 == b) =
          ((pairedRows colA colB).filter fun r => r.1 == a).countP
            fun r => r.2 == b := by
        intro b
        rw [List.countP_filter]
        congr 1
        funext r
        rw [Bool.and_comm]
      have h1 : ((uniqueFS ((pairedRows colA colB).map Prod.snd)).map fun b =>
          (pairedRows colA colB).countP fun r => r.1 == a && r.2 == b) =
          (uniqueFS ((pairedRows colA colB).map Prod.snd)).map fun b =>
            ((pairedRows colA colB).filter fun r => r.1 == a).countP
              fun r => r.2 == b := by
        simp only [hsw]
      rw [h1]
      exact sum_countP_keys Prod.snd _
        (nodup_uniqueFS _)
        _
        (fun x hx => (mem_uniqueFS _ _).2
          (List.mem_map_of_mem Prod.snd (List.mem_of_mem_filter hx)))
    have h2 : ((uniqueFS ((pairedRows colA colB).map Prod.fst)).map fun a =>
        ((uniqueFS ((pairedRows colA colB).map Prod.snd)).map fun b =>
          (pairedRows colA colB).countP fun r => r.1 == a && r.2 == b).sum) =
        (uniqueFS ((pairedRows colA colB).map Prod.fst)).map fun a =>
          (pairedRows colA colB).countP fun r => r.1 == a :=
      List.map_congr_left fun a _ => by
        rw [hinner a, ← List.countP_eq_length_filter]
    rw [h2]
    exact sum_countP_keys Prod.fst _
      (nodup_uniqueFS _)
      _
      (fun x hx => (mem_uniqueFS _ _).2 (List.mem_map_of_mem Prod.fst hx))

/-- Claim C4: requesting the cross-analysis of a column with itself yields
the None failure signal the caller surfaces as an invalid-input warning,
and None is returned exactly for invalid selections (an empty selection or
two equal columns), never for a valid pair — so the failure is
distinguishable from every successful analysis. -/
theorem c4_same_column_invalid (df : List (String × List Cell)) (v v1 v2 : String) :
    create_cross_analysis df v v = none ∧
    (create_cross_analysis df v1 v2 = none ↔ (v1 = "" ∨ v2 = "" ∨ v1 = v2)) := by
  constructor
  · rw [create_cross_analysis, if_neg]
    rintro ⟨-, -, h⟩
    exact h rfl
  · constructor
    · intro h
      by_contra hc
      push_neg at hc
      rw [create_cross_analysis, if_pos ⟨hc.1, hc.2.1, hc.2.2⟩] at h
      cases h
    · intro h
      rw [create_cross_analysis, if_neg]
      rintro ⟨ha, hb, hab⟩
      rcases h with h | h | h
      · exact ha h
      · exact hb h
      · exact hab h

/-- The Pearson chi-square statistic of a table of observed counts, per
spec 4.3: expected cell = (row total × column total) / grand total,
statistic = sum over cells of (observed − expected)² / expected. The
external `scipy.stats.chi2_contingency` computes this (plus library
details — a Yates continuity adjustment at one degree of freedom and a
guard raising on a zero expected cell, which observed-value tables never
produce); its numeric value decides no claim below. -/
def chi2_statistic (cells : List (List ℕ)) : ℚ :=
  let grand : ℚ := ((cells.map List.sum).sum : ℕ)
  let cTot : List ℚ := (List.transpose cells).map fun c => ((c.sum : ℕ) : ℚ)
  (cells.map fun row =>
    ((row.zip cTot).map fun oc =>
      let e : ℚ := ((row.sum : ℕ) : ℚ) * oc.2 / grand
      (((oc.1 : ℕ) : ℚ) - e) ^ 2 / e).sum).sum

/-- `scipy.stats.chi2_contingency` on a rendered table, modelled from
spec 4.3: (statistic, p-value, degrees of freedom). The survival function
of the chi-square distribution is the external parameter `sf`; at zero
degrees of freedom scipy short-circuits to statistic 0 and p-value 1. -/
def chi2_contingency (sf : ℚ → ℕ → ℚ) (t : CrossTab) : ℚ × ℚ × ℕ :=
  let d := (t.rowKeys.length - 1) * (t.colKeys.length - 1)
  if d = 0 then (0, 1, 0)
  else (chi2_statistic t.cells, sf (chi2_statistic t.cells) d, d)

/-- The record `analyze_mental_health_vs_future_children` returns (the
figure, a presentation artifact, is not part of the analytical result). -/
structure MHResult where
  crosstab : CrossTab
  chi2 : Option ℚ
  p_value : Option ℚ
  interpretation : String

/-- `MaternityAnalyzer.analyze_mental_health_vs_future_children`
(survey_analyzer_enhanced.py lines 121-170), on the two bound key columns
given as parallel row pairs: drop rows with a missing side; if fewer than
10 remain, return None; build the crosstab; run the chi-square test only
when the table has more than one row and more than one column, else leave
chi2 and p None; Python `if p_value else` also treats a p-value of exactly
0.0 as falsy when choosing the interpretation. -/
def analyze_mental_health_vs_future_children (sf : ℚ → ℕ → ℚ)
    (rows : List (Cell × Cell)) : Option MHResult :=
  let clean := rows.filterMap pairOf
  if clean.length < 10 then none
  else
    let t := crosstabOfPairs clean
    if 1 < t.rowKeys.length ∧ 1 < t.colKeys.length then
      let r := chi2_contingency sf t
      some { crosstab := t, chi2 := some r.1, p_value := some r.2.1,
             interpretation :=
               if r.2.1 ≠ 0 then interpret_p_value (some r.2.1)
               else "Insufficient data for statistical analysis" }
    else
      some { crosstab := t, chi2 := none, p_value := none,
             interpretation := "Insufficient data for statistical analysis" }

/-- The record `analyze_education_vs_satisfaction` returns. -/
structure EduResult where
  crosstab : CrossTab
  chi2 : ℚ
  p_value : ℚ
  interpretation : String

/-- `MaternityAnalyzer.analyze_education_vs_satisfaction`
(survey_analyzer_enhanced.py lines 87-119), on the two bound key columns
given as parallel row pairs: builds the crosstab (margins added then
stripped, leaving the plain table) and runs the chi-square test
UNCONDITIONALLY — no paired-observation minimum and no table-shape guard
before `chi2_contingency`. -/
def analyze_education_vs_satisfaction (sf : ℚ → ℕ → ℚ)
    (rows : List (Cell × Cell)) : EduResult :=
  let clean := rows.filterMap pairOf
  let t := crosstabOfPairs clean
  let r := chi2_contingency sf t
  { crosstab := t, chi2 := r.1, p_value := r.2.1,
    interpretation := interpret_p_value (some r.2.1) }

/-- Claim C2, the part the code satisfies (amended): the
mental-health-vs-future-children analysis returns None below 10 paired
observations and, on a degenerate (single-row or single-column) table,
returns a result whose chi2 and p-value are None with the insufficient-data
interpretation, never running the test. -/
theorem c2_small_input_guard (sf : ℚ → ℕ → ℚ) (rows : List (Cell × Cell)) :
    ((rows.filterMap pairOf).length < 10 →
      analyze_mental_health_vs_future_children sf rows = none) ∧
    (∀ r, analyze_mental_health_vs_future_children sf rows = some r →
      10 ≤ (rows.filterMap pairOf).length ∧
      ((r.crosstab.rowKeys.length ≤ 1 ∨ r.crosstab.colKeys.length ≤ 1) →
        r.chi2 = none ∧ r.p_value = none ∧
        r.interpretation = "Insufficient data for statistical analysis")) := by
  constructor
  · intro h
    rw [analyze_mental_health_vs_future_children]
    simp only [h, if_true]
  · intro r hr
    rw [analyze_mental_health_vs_future_children] at hr
    by_cases hlen : (rows.filterMap pairOf).length < 10
    · simp only [hlen, if_true] at hr
      cases hr
    · simp only [hlen, if_false] at hr
      refine ⟨Nat.le_of_not_lt hlen, ?_⟩
      intro hdeg
      by_cases hshape : 1 < (crosstabOfPairs (rows.filterMap pairOf)).rowKeys.length ∧
          1 < (crosstabOfPairs (rows.filterMap pairOf)).colKeys.length
      · rw [if_pos hshape] at hr
        exfalso
        injection hr with hr2
        rw [← hr2] at hdeg
        rcases hdeg with h | h
        · exact absurd hshape.1 (Nat.not_lt.2 h)
        · exact absurd hshape.2 (Nat.not_lt.2 h)
      · rw [if_neg hshape] at hr
        injection hr with hr2
        rw [← hr2]
        exact ⟨rfl, rfl, rfl⟩

/-- A constant stand-in for the chi-square survival function: the
counterexample is independent of the concrete p-value the external
distribution would return. -/
def sfConst : ℚ → ℕ → ℚ := fun _ _ => 37/100

/-- Six rows of the two education/satisfaction key columns: five
paired-complete rows over a 2×2 value set, one row with a missing side. -/
def rowsC2 : List (Cell × Cell) :=
  [(some "x", some "p"), (some "x", some "p"), (some "x", some "q"),
   (some "y", some "p"), (some "y", some "q"), (none, some "p")]

/-- Claim C2 counterexample: with only 5 paired-complete observations the
education-vs-satisfaction analysis does NOT return an unavailable or
insufficient-data result — it computes the chi-square test and reports a
p-value-derived interpretation. -/
theorem c2_education_unguarded_cex :
    (rowsC2.filterMap pairOf).length = 5 ∧
    (analyze_education_vs_satisfaction sfConst rowsC2).p_value = 37/100 ∧
    (analyze_education_vs_satisfaction sfConst rowsC2).interpretation =
      "No significant statistical relationship found" ∧
    (analyze_education_vs_satisfaction sfConst rowsC2).interpretation ≠
      "Insufficient data for statistical analysis" := by
  have hp : (analyze_education_vs_satisfaction sfConst rowsC2).p_value = 37/100 := by
    show (chi2_contingency sfConst (crosstabOfPairs (rowsC2.filterMap pairOf))).2.1 = 37/100
    rw [show crosstabOfPairs (rowsC2.filterMap pairOf) =
        { rowKeys := ["x", "y"], colKeys := ["p", "q"],
          cells := [[2, 1], [1, 1]] } from by decide]
    rw [chi2_contingency]
    norm_num [sfConst]
  have hi : (analyze_education_vs_satisfaction sfConst rowsC2).interpretation =
      "No significant statistical relationship found" := by
    show interpret_p_value
        (some (chi2_contingency sfConst (crosstabOfPairs (rowsC2.filterMap pairOf))).2.1) =
      "No significant statistical relationship found"
    rw [show (chi2_contingency sfConst (crosstabOfPairs (rowsC2.filterMap pairOf))).2.1 =
        (analyze_education_vs_satisfaction sfConst rowsC2).p_value from rfl, hp]
    rw [interpret_p_value]
    norm_num
  refine ⟨rfl, hp, hi, ?_⟩
  intro h
  rw [hi] at h
  exact absurd h (by decide)

/-- One character of the cleaning pass of `analyze_text_responses`
(survey_analyzer.py line 195): `re.sub` keeps word characters
(alphanumerics and underscore; Python matches them Unicode-wide, the
survey text is modelled over this core) and whitespace, and turns every
other character into a space. -/
def clean_char (c : Char) : Char :=
  if c.isAlphanum || c == '_' || c.isWhitespace then c else ' '

/-- Collapse every whitespace run into a single space, tracking whether
the previous kept character was part of a run (line 196,
`re.sub` of one or more whitespace characters with a space). -/
def collapseWS : List Char → Bool → List Char
  | [], _ => []
  | c :: cs, prev =>
    if c.isWhitespace then
      if prev then collapseWS cs true else ' ' :: collapseWS cs true
    else c :: collapseWS cs false

/-- The text normalization of `analyze_text_responses` (lines 195-196):
lowercase, non-word non-space characters to spaces, whitespace runs
collapsed. -/
def clean_text (s : String) : String :=
  String.mk (collapseWS ((s.data.map Char.toLower).map clean_char) false)

/-- Whitespace-delimited tokens of a cleaned text. -/
def tokensOf (s : String) : List String :=
  (s.splitOn " ").filter fun t => t ≠ ""

/-- The token frequency table over a token list, in first-seen token
order. -/
def token_counts (toks : List String) : List (String × ℕ) :=
  (uniqueFS toks).map fun t => (t, toks.count t)

/-- `SurveyAnalyzer.analyze_text_responses` (survey_analyzer.py lines
184-222): drop missing values; when none remain return the (None, None)
empty marker, modelled as `none`; otherwise join the responses with
spaces, normalize, and return the token frequency table (the counting the
downstream word-cloud library performs over the cleaned text, per spec
4.4 — the rendered image is the excluded presentation layer) together
with the count of non-missing responses. -/
def analyze_text_responses (col : List Cell) : Option (List (String × ℕ) × ℕ) :=
  let text_data := dropna col
  if text_data.length = 0 then none
  else
    some (token_counts (tokensOf (clean_text (String.intercalate " " text_data))),
          text_data.length)

/-- Claim C9: a free-text column whose values are all missing yields the
explicit empty marker, distinguishable from a frequency table with zero
entries: every non-empty analysis carries the positive count of
non-missing responses. -/
theorem c9_empty_text_marker (col : List Cell) :
    (dropna col = [] → analyze_text_responses col = none) ∧
    (∀ tb n, analyze_text_responses col = some (tb, n) →
      n = (dropna col).length ∧ 0 < n) := by
  constructor
  · intro h
    rw [analyze_text_responses]
    simp [h]
  · intro tb n h
    rw [analyze_text_responses] at h
    by_cases hlen : (dropna col).length = 0
    · simp only [hlen, if_true] at h
      cases h
    · simp only [hlen, if_false] at h
      injection h with h2
      have h3 := congrArg Prod.snd h2
      simp only at h3
      exact ⟨h3.symm, h3 ▸ Nat.pos_of_ne_zero hlen⟩

end Survey
